import Mathlib

/-!
Shallow embedding of the event routing and delivery subsystem of
happy-server (the `EventRouter` module): the connection registry, the
recipient-filter policy, the emission pipeline and the payload builders,
together with theorems checking the specification's claims about them.

Modelling conventions:
* A JS `Map<string, Set<ClientConnection>>` is an insertion-ordered
  association list whose values are insertion-ordered duplicate-free lists;
  `mapGet`/`mapSet`/`mapDelete`/`setAdd` mirror the `Map`/`Set` methods used
  by the source.
* JS object identity of a connection is modelled by a `cid` field: the
  registry and the `skipSenderConnection` check compare connections by
  `===`, which the embedding renders as equality of the `cid`-bearing record.
* `socket.emit(eventName, payload)` writes and `log(..., msg)` warnings are
  collected in an `EmitResult` value instead of performing I/O.
* `Date.now()` readings are passed to the payload builders as an explicit
  `now` argument.
-/

namespace HappyServer

/-- Scope discriminant and scope-specific fields of the three connection
interfaces (`SessionScopedConnection`, `UserScopedConnection`,
`MachineScopedConnection`). -/
inductive ConnScope where
  | sessionScoped (sessionId : String)
  | userScoped
  | machineScoped (machineId : String)
deriving DecidableEq

/-- A client connection. `cid` models the JavaScript object identity of the
connection record (and of the socket it owns): distinct live connection
objects carry distinct `cid`s, so equality of these records is `===` of the
source's connection objects. -/
structure ClientConnection where
  cid : Nat
  userId : String
  scope : ConnScope
deriving DecidableEq

/-- The closed `RecipientFilter` variant. -/
inductive RecipientFilter where
  | allInterestedInSession (sessionId : String)
  | userScopedOnly
  | allUserAuthenticatedConnections
deriving DecidableEq

/-- The two wire event tags used by `emit`. -/
inductive EventName where
  | update
  | ephemeral
deriving DecidableEq

/-- JS `Map.prototype.get` on the insertion-ordered association list. -/
def mapGet (m : List (String × List ClientConnection)) (k : String) :
    Option (List ClientConnection) :=
  match m with
  | [] => none
  | (k', v) :: rest => if k' = k then some v else mapGet rest k

/-- JS `Map.prototype.set`: updates the entry in place when the key is
present, appends a new entry otherwise. -/
def mapSet (m : List (String × List ClientConnection)) (k : String)
    (v : List ClientConnection) : List (String × List ClientConnection) :=
  match m with
  | [] => [(k, v)]
  | (k', v') :: rest => if k' = k then (k, v) :: rest else (k', v') :: mapSet rest k v

/-- JS `Map.prototype.delete`. -/
def mapDelete (m : List (String × List ClientConnection)) (k : String) :
    List (String × List ClientConnection) :=
  match m with
  | [] => []
  | (k', v') :: rest => if k' = k then rest else (k', v') :: mapDelete rest k

/-- JS `Set.prototype.add` on an insertion-ordered duplicate-free list. -/
def setAdd (s : List ClientConnection) (c : ClientConnection) :
    List ClientConnection :=
  if c ∈ s then s else s ++ [c]

/-- The `EventRouter`'s only state:
`private userConnections = new Map<string, Set<ClientConnection>>()`. -/
structure EventRouter where
  userConnections : List (String × List ClientConnection)
deriving DecidableEq

/-- A freshly constructed router (empty map). -/
def EventRouter.empty : EventRouter := ⟨[]⟩

/-- `EventRouter.addConnection`. -/
def EventRouter.addConnection (r : EventRouter) (userId : String)
    (connection : ClientConnection) : EventRouter :=
  match mapGet r.userConnections userId with
  | none => ⟨mapSet r.userConnections userId (setAdd [] connection)⟩
  | some s => ⟨mapSet r.userConnections userId (setAdd s connection)⟩

/-- `EventRouter.removeConnection`. -/
def EventRouter.removeConnection (r : EventRouter) (userId : String)
    (connection : ClientConnection) : EventRouter :=
  match mapGet r.userConnections userId with
  | none => r
  | some connections =>
    let connections' := connections.erase connection
    if connections'.length = 0 then ⟨mapDelete r.userConnections userId⟩
    else ⟨mapSet r.userConnections userId connections'⟩

/-- `EventRouter.getConnections`. -/
def EventRouter.getConnections (r : EventRouter) (userId : String) :
    Option (List ClientConnection) :=
  mapGet r.userConnections userId

/-- `EventRouter.shouldSendToConnection` (the method reads no router state,
so it is embedded as a plain function). -/
def shouldSendToConnection (connection : ClientConnection)
    (filter : RecipientFilter) : Bool :=
  match filter with
  | .allInterestedInSession sessionId =>
    match connection.scope with
    | .sessionScoped sid => if sid ≠ sessionId then false else true
    | .machineScoped _ => false
    | .userScoped => true
  | .userScopedOnly =>
    match connection.scope with
    | .userScoped => true
    | _ => false
  | .allUserAuthenticatedConnections => true

/-- The sender-echo guard in `emit`:
`params.skipSenderConnection && connection === params.skipSenderConnection`. -/
def skipsSender (skipSenderConnection : Option ClientConnection)
    (connection : ClientConnection) : Bool :=
  match skipSenderConnection with
  | some sender => decide (connection = sender)
  | none => false

/-- One iteration of the `emit` loop body: the `socket.emit` write performed
for one connection, or `none` when the connection is skipped or filtered. -/
def deliveryFor {α : Type} (eventName : EventName) (payload : α)
    (recipientFilter : RecipientFilter)
    (skipSenderConnection : Option ClientConnection)
    (connection : ClientConnection) :
    Option (ClientConnection × EventName × α) :=
  if skipsSender skipSenderConnection connection then none
  else if !shouldSendToConnection connection recipientFilter then none
  else some (connection, eventName, payload)

/-- Observable outcome of one `emit` call: the `socket.emit` writes it
performed, in iteration order, and the warning messages it logged. -/
structure EmitResult (α : Type) where
  deliveries : List (ClientConnection × EventName × α)
  warnings : List String
deriving DecidableEq

/-- `EventRouter.emit` (private). The payload is opaque to the routing logic
(`payload: any` in the source), hence the type parameter. -/
def EventRouter.emit {α : Type} (r : EventRouter) (userId : String)
    (eventName : EventName) (payload : α) (recipientFilter : RecipientFilter)
    (skipSenderConnection : Option ClientConnection) : EmitResult α :=
  match mapGet r.userConnections userId with
  | none => ⟨[], ["No connections found for user " ++ userId]⟩
  | some connections =>
    ⟨connections.filterMap
        (deliveryFor eventName payload recipientFilter skipSenderConnection),
      []⟩

/-- JS `Date`, identified with its epoch-millisecond reading. -/
structure JsDate where
  epochMs : Int
deriving DecidableEq

/-- `Date.prototype.getTime`. -/
def JsDate.getTime (d : JsDate) : Int := d.epochMs

/-- The message record inside a `new-message` body after the builder's
timestamp conversion (`createdAt`/`updatedAt` already epoch milliseconds).
`γ` is the type of the opaque `content` field. -/
structure MessageWire (γ : Type) where
  id : String
  seq : Int
  content : γ
  localId : Option String
  createdAt : Int
  updatedAt : Int
deriving DecidableEq

/-- A `{value, version}` delta (`value` may be null). -/
structure VersionedValue where
  value : Option String
  version : Int
deriving DecidableEq

/-- The five body records the update builders construct, tagged by their `t`
field; constructor argument names follow the builder literals (`sid`, `id`,
`machineId`, ...). -/
inductive UpdateBody (γ : Type) where
  | newMessage (sid : String) (message : MessageWire γ)
  | newSession (id : String) (seq : Int) (metadata : String)
      (metadataVersion : Int) (agentState : Option String)
      (agentStateVersion : Int) (active : Bool) (activeAt : Int)
      (createdAt : Int) (updatedAt : Int)
  | updateSession (id : String) (metadata : Option VersionedValue)
      (agentState : Option VersionedValue)
  | updateAccount (id : String) (settings : VersionedValue)
  | updateMachine (machineId : String) (metadata : Option VersionedValue)
      (daemonState : Option VersionedValue)
deriving DecidableEq

/-- The `UpdatePayload` envelope. -/
structure UpdatePayload (γ : Type) where
  id : String
  seq : Int
  body : UpdateBody γ
  createdAt : Int
deriving DecidableEq

/-- The `EphemeralPayload` shapes the ephemeral builders construct
(`Record<string, number>` fields become association lists over `Rat`). -/
inductive EphemeralPayload where
  | activity (id : String) (active : Bool) (activeAt : Int) (thinking : Bool)
  | machineActivity (id : String) (active : Bool) (activeAt : Int)
  | usage (id : String) (key : String) (tokens : List (String × Rat))
      (cost : List (String × Rat)) (timestamp : Int)
  | machineStatus (machineId : String) (online : Bool) (timestamp : Int)
deriving DecidableEq

/-- `EventRouter.emitUpdate`; the optional filter defaults as in the source
(`params.recipientFilter || { type: 'all-user-authenticated-connections' }`). -/
def EventRouter.emitUpdate {γ : Type} (r : EventRouter) (userId : String)
    (payload : UpdatePayload γ) (recipientFilter : Option RecipientFilter)
    (skipSenderConnection : Option ClientConnection) :
    EmitResult (UpdatePayload γ) :=
  r.emit userId .update payload
    (recipientFilter.getD .allUserAuthenticatedConnections) skipSenderConnection

/-- `EventRouter.emitEphemeral`. -/
def EventRouter.emitEphemeral (r : EventRouter) (userId : String)
    (payload : EphemeralPayload) (recipientFilter : Option RecipientFilter)
    (skipSenderConnection : Option ClientConnection) :
    EmitResult EphemeralPayload :=
  r.emit userId .ephemeral payload
    (recipientFilter.getD .allUserAuthenticatedConnections) skipSenderConnection

/-- The session row passed to `buildNewSessionUpdate`. -/
structure SessionEntity where
  id : String
  seq : Int
  metadata : String
  metadataVersion : Int
  agentState : Option String
  agentStateVersion : Int
  active : Bool
  lastActiveAt : JsDate
  createdAt : JsDate
  updatedAt : JsDate
deriving DecidableEq

/-- `buildNewSessionUpdate`; `now` is the `Date.now()` reading taken for the
envelope's `createdAt`. -/
def buildNewSessionUpdate {γ : Type} (session : SessionEntity)
    (updateSeq : Int) (updateId : String) (now : Int) : UpdatePayload γ :=
  { id := updateId
    seq := updateSeq
    body := .newSession session.id session.seq session.metadata
      session.metadataVersion session.agentState session.agentStateVersion
      session.active session.lastActiveAt.getTime session.createdAt.getTime
      session.updatedAt.getTime
    createdAt := now }

/-- The message row passed to `buildNewMessageUpdate` (timestamps still
`Date` values). -/
structure MessageRecord (γ : Type) where
  id : String
  seq : Int
  content : γ
  localId : Option String
  createdAt : JsDate
  updatedAt : JsDate
deriving DecidableEq

/-- `buildNewMessageUpdate`. -/
def buildNewMessageUpdate {γ : Type} (message : MessageRecord γ)
    (sessionId : String) (updateSeq : Int) (updateId : String) (now : Int) :
    UpdatePayload γ :=
  { id := updateId
    seq := updateSeq
    body := .newMessage sessionId
      { id := message.id
        seq := message.seq
        content := message.content
        localId := message.localId
        createdAt := message.createdAt.getTime
        updatedAt := message.updatedAt.getTime }
    createdAt := now }

/-- `buildUsageEphemeral`; `now` is the `Date.now()` timestamp. -/
def buildUsageEphemeral (sessionId : String) (key : String)
    (tokens : List (String × Rat)) (cost : List (String × Rat)) (now : Int) :
    EphemeralPayload :=
  .usage sessionId key tokens cost now

/-- Trace entry produced by a router call: a `socket.emit` write on a
connection, or a logged warning. -/
inductive Emitted where
  | sent (connection : ClientConnection) (eventName : EventName)
  | warned (msg : String)
deriving DecidableEq

/-- One call against a router, with the arguments the call site supplies. -/
inductive Op (γ : Type) where
  | add (userId : String) (connection : ClientConnection)
  | remove (userId : String) (connection : ClientConnection)
  | update (userId : String) (payload : UpdatePayload γ)
      (recipientFilter : Option RecipientFilter)
      (skipSenderConnection : Option ClientConnection)
  | ephemeral (userId : String) (payload : EphemeralPayload)
      (recipientFilter : Option RecipientFilter)
      (skipSenderConnection : Option ClientConnection)

/-- Effect of one call: the registry afterwards, plus the trace of writes
and warnings the call produced. The emission methods compute their
`EmitResult` from the registry; their bodies contain no assignment to
`userConnections`, so they return the registry they started from. -/
def applyOp {γ : Type} (r : EventRouter) (o : Op γ) :
    EventRouter × List Emitted :=
  match o with
  | .add u c => (r.addConnection u c, [])
  | .remove u c => (r.removeConnection u c, [])
  | .update u p f sk =>
    let res := r.emitUpdate u p f sk
    (r, res.deliveries.map (fun d => .sent d.1 d.2.1)
          ++ res.warnings.map .warned)
  | .ephemeral u p f sk =>
    let res := r.emitEphemeral u p f sk
    (r, res.deliveries.map (fun d => .sent d.1 d.2.1)
          ++ res.warnings.map .warned)

/-- Run a sequence of calls from a starting registry. -/
def runOps {γ : Type} (r : EventRouter) (ops : List (Op γ)) : EventRouter :=
  ops.foldl (fun rr o => (applyOp rr o).1) r

/-- `next()` of a JS `Set` iterator: the first element of the current live
set that has not been visited yet. An element deleted before being visited
is thereby skipped. -/
def nextUnvisited (live visited : List ClientConnection) :
    Option ClientConnection :=
  live.find? (fun c => decide (c ∉ visited))

/-- Small-step run of the `for (const connection of connections)` loop in
`emit`, iterating the live set stored in the registry (the source takes no
snapshot copy). Before each iteration the scheduler may interleave
`removeConnection` calls, listed per iteration in `schedule`; `schedule = []`
is the uninterrupted synchronous run. `fuel` bounds the iteration count. -/
def emitLoop {γ : Type} (fuel : Nat) (r : EventRouter) (userId : String)
    (eventName : EventName) (payload : γ) (recipientFilter : RecipientFilter)
    (skipSenderConnection : Option ClientConnection)
    (visited : List ClientConnection)
    (schedule : List (List (String × ClientConnection))) :
    List (ClientConnection × EventName × γ) :=
  match fuel with
  | 0 => []
  | fuel' + 1 =>
    let r1 := (schedule.headD []).foldl
      (fun rr q => rr.removeConnection q.1 q.2) r
    match nextUnvisited ((r1.getConnections userId).getD []) visited with
    | none => []
    | some c =>
      match deliveryFor eventName payload recipientFilter
          skipSenderConnection c with
      | some d => d :: emitLoop fuel' r1 userId eventName payload
          recipientFilter skipSenderConnection (visited ++ [c]) schedule.tail
      | none => emitLoop fuel' r1 userId eventName payload
          recipientFilter skipSenderConnection (visited ++ [c]) schedule.tail

/-- Representation invariant inherited from JS `Map`/`Set`: keys are unique
and each connection set is duplicate-free. -/
def EventRouter.WF (r : EventRouter) : Prop :=
  (r.userConnections.map Prod.fst).Nodup ∧
    ∀ p ∈ r.userConnections, p.2.Nodup

/-- The registry invariant claimed by the specification: every key present
in the mapping has a non-empty connection set. -/
def noEmptySets (r : EventRouter) : Prop :=
  ∀ p ∈ r.userConnections, p.2 ≠ []

instance (r : EventRouter) : Decidable r.WF := by
  unfold EventRouter.WF
  exact inferInstance

instance (r : EventRouter) : Decidable (noEmptySets r) := by
  unfold noEmptySets
  exact inferInstance

/-- Concrete user-scoped connections and routers used by the witnesses. -/
def connA : ClientConnection := ⟨0, "u", .userScoped⟩

def connB : ClientConnection := ⟨1, "u", .userScoped⟩

def demoRouter : EventRouter :=
  (EventRouter.empty.addConnection "u" connA).addConnection "u" connB

def soloRouter : EventRouter := EventRouter.empty.addConnection "u" connA

def demoPayload : UpdatePayload Unit :=
  buildNewSessionUpdate ⟨"s1", 0, "m", 1, none, 0, true, ⟨3⟩, ⟨4⟩, ⟨5⟩⟩ 7 "up1" 100

def usageDemo : EphemeralPayload :=
  buildUsageEphemeral "s1" "k1" [("input", 10)] [("usd", 1/1000)] 42

/-! ### Association-list and set lemmas -/

theorem mapGet_mapSet_self (m : List (String × List ClientConnection))
    (k : String) (v : List ClientConnection) :
    mapGet (mapSet m k v) k = some v := by
  induction m with
  | nil => simp [mapGet, mapSet]
  | cons p rest ih =>
    obtain ⟨k', v'⟩ := p
    by_cases h : k' = k
    · simp [mapSet, mapGet, h]
    · simp [mapSet, mapGet, h, ih]

theorem mapSet_mapSet (m : List (String × List ClientConnection))
    (k : String) (v w : List ClientConnection) :
    mapSet (mapSet m k v) k w = mapSet m k w := by
  induction m with
  | nil => simp [mapSet]
  | cons p rest ih =>
    obtain ⟨k', v'⟩ := p
    by_cases h : k' = k
    · simp [mapSet, h]
    · simp [mapSet, h, ih]

theorem mem_of_mapGet {m : List (String × List ClientConnection)}
    {k : String} {v : List ClientConnection} (h : mapGet m k = some v) :
    (k, v) ∈ m := by
  induction m with
  | nil => simp [mapGet] at h
  | cons p rest ih =>
    obtain ⟨k', v'⟩ := p
    by_cases hk : k' = k
    · subst hk
      simp [mapGet] at h
      subst h
      exact List.mem_cons_self _ _
    · simp [mapGet, hk] at h
      exact List.mem_cons_of_mem _ (ih h)

theorem mapGet_eq_none_of_not_mem
    {m : List (String × List ClientConnection)} {k : String}
    (h : k ∉ m.map Prod.fst) : mapGet m k = none := by
  induction m with
  | nil => rfl
  | cons p rest ih =>
    obtain ⟨k', v'⟩ := p
    simp only [List.map_cons, List.mem_cons, not_or] at h
    have hk : ¬k' = k := fun hk => h.1 hk.symm
    simp [mapGet, hk, ih h.2]

theorem mapGet_mapDelete_self {m : List (String × List ClientConnection)}
    {k : String} (hnd : (m.map Prod.fst).Nodup) :
    mapGet (mapDelete m k) k = none := by
  induction m with
  | nil => rfl
  | cons p rest ih =>
    obtain ⟨k', v'⟩ := p
    simp only [List.map_cons, List.nodup_cons] at hnd
    by_cases h : k' = k
    · subst h
      simpa [mapDelete] using
        mapGet_eq_none_of_not_mem (m := rest) (k := k') hnd.1
    · simp [mapDelete, mapGet, h, ih hnd.2]

theorem mem_mapSet {m : List (String × List ClientConnection)}
    {k : String} {v : List ClientConnection}
    {p : String × List ClientConnection} (h : p ∈ mapSet m k v) :
    p = (k, v) ∨ p ∈ m := by
  induction m with
  | nil => simp [mapSet] at h; exact Or.inl h
  | cons q rest ih =>
    obtain ⟨k', v'⟩ := q
    by_cases hk : k' = k
    · simp [mapSet, hk] at h
      rcases h with h | h
      · exact Or.inl h
      · exact Or.inr (List.mem_cons_of_mem _ h)
    · simp [mapSet, hk] at h
      rcases h with h | h
      · exact Or.inr (by simp [h])
      · rcases ih h with h' | h'
        · exact Or.inl h'
        · exact Or.inr (List.mem_cons_of_mem _ h')

theorem mem_mapDelete {m : List (String × List ClientConnection)}
    {k : String} {p : String × List ClientConnection}
    (h : p ∈ mapDelete m k) : p ∈ m := by
  induction m with
  | nil => simp [mapDelete] at h
  | cons q rest ih =>
    obtain ⟨k', v'⟩ := q
    by_cases hk : k' = k
    · simp [mapDelete, hk] at h
      exact List.mem_cons_of_mem _ h
    · simp [mapDelete, hk] at h
      rcases h with h | h
      · simp [h]
      · exact List.mem_cons_of_mem _ (ih h)

theorem mem_setAdd_self (s : List ClientConnection) (c : ClientConnection) :
    c ∈ setAdd s c := by
  unfold setAdd
  split
  · assumption
  · simp

theorem setAdd_setAdd (s : List ClientConnection) (c : ClientConnection) :
    setAdd (setAdd s c) c = setAdd s c := by
  show (if c ∈ setAdd s c then setAdd s c else setAdd s c ++ [c]) = setAdd s c
  rw [if_pos (mem_setAdd_self s c)]

theorem setAdd_nodup {s : List ClientConnection} (c : ClientConnection)
    (h : s.Nodup) : (setAdd s c).Nodup := by
  unfold setAdd
  split
  · exact h
  · next hc => simp [List.nodup_append, h, hc]

theorem setAdd_ne_nil (s : List ClientConnection) (c : ClientConnection) :
    setAdd s c ≠ [] := by
  unfold setAdd
  split
  · next hc => intro hnil; rw [hnil] at hc; cases hc
  · simp

theorem count_setAdd_self {s : List ClientConnection} (c : ClientConnection)
    (h : s.Nodup) : (setAdd s c).count c = 1 := by
  unfold setAdd
  split
  · next hc => exact List.count_eq_one_of_mem h hc
  · next hc =>
    rw [List.count_append, List.count_eq_zero_of_not_mem hc]
    simp

/-! ### Router-level lemmas -/

theorem getConnections_addConnection_self (r : EventRouter) (u : String)
    (c : ClientConnection) :
    (r.addConnection u c).getConnections u
      = some (setAdd ((r.getConnections u).getD []) c) := by
  unfold EventRouter.addConnection EventRouter.getConnections
  cases h : mapGet r.userConnections u with
  | none => simp [h, mapGet_mapSet_self]
  | some s => simp [h, mapGet_mapSet_self]

theorem addConnection_addConnection (r : EventRouter) (u : String)
    (c : ClientConnection) :
    (r.addConnection u c).addConnection u c = r.addConnection u c := by
  unfold EventRouter.addConnection
  cases h : mapGet r.userConnections u with
  | none =>
    simp only [h, mapGet_mapSet_self, setAdd_setAdd, mapSet_mapSet]
  | some s =>
    simp only [h, mapGet_mapSet_self, setAdd_setAdd, mapSet_mapSet]

theorem nodup_of_getConnections {r : EventRouter} {u : String}
    {s : List ClientConnection} (hwf : r.WF)
    (h : r.getConnections u = some s) : s.Nodup :=
  hwf.2 (u, s) (mem_of_mapGet h)

/-! ### Delivery-count lemmas -/

theorem deliveryFor_eq_some {γ : Type} {ev : EventName} {P : γ}
    {f : RecipientFilter} {sk : Option ClientConnection}
    {a : ClientConnection} {d : ClientConnection × EventName × γ}
    (h : deliveryFor ev P f sk a = some d) : d = (a, ev, P) := by
  unfold deliveryFor at h
  by_cases h1 : skipsSender sk a
  · simp [h1] at h
  · by_cases h2 : shouldSendToConnection a f
    · simp [h1, h2] at h
      exact h.symm
    · simp [h1, h2] at h

theorem count_deliveries_zero {γ : Type} [DecidableEq γ] (ev : EventName)
    (P : γ) (f : RecipientFilter) (sk : Option ClientConnection)
    (s : List ClientConnection) (c : ClientConnection) (hc : c ∉ s) :
    (s.filterMap (deliveryFor ev P f sk)).count (c, ev, P) = 0 := by
  induction s with
  | nil => rfl
  | cons a t ih =>
    have hc' : c ∉ t := fun h => hc (List.mem_cons_of_mem _ h)
    have hca : c ≠ a := fun h => hc (h ▸ List.mem_cons_self a t)
    cases hd : deliveryFor ev P f sk a with
    | none => simpa [List.filterMap_cons, hd] using ih hc'
    | some d =>
      have hda := deliveryFor_eq_some hd
      subst hda
      have hne : ((a, ev, P) : ClientConnection × EventName × γ)
          ≠ (c, ev, P) := by
        simp [hca.symm]
      simp [List.filterMap_cons, hd, List.count_cons, hne, ih hc']

theorem count_deliveries_eq {γ : Type} [DecidableEq γ] (ev : EventName)
    (P : γ) (f : RecipientFilter) (sk : Option ClientConnection)
    (s : List ClientConnection) (hnd : s.Nodup) (c : ClientConnection)
    (hc : c ∈ s) (hsend : shouldSendToConnection c f = true) :
    (s.filterMap (deliveryFor ev P f sk)).count (c, ev, P)
      = if skipsSender sk c then 0 else 1 := by
  induction s with
  | nil => cases hc
  | cons a t ih =>
    obtain ⟨hat, htnd⟩ := List.nodup_cons.mp hnd
    rcases List.mem_cons.mp hc with hca | hct
    · subst hca
      by_cases hskip : skipsSender sk c
      · have hd : deliveryFor ev P f sk c = none := by
          simp [deliveryFor, hskip]
        simp [List.filterMap_cons, hd, hskip,
          count_deliveries_zero ev P f sk t c hat]
      · have hd : deliveryFor ev P f sk c = some (c, ev, P) := by
          simp [deliveryFor, hskip, hsend]
        simp [List.filterMap_cons, hd, hskip, List.count_cons,
          count_deliveries_zero ev P f sk t c hat]
    · have hca : c ≠ a := fun h => hat (h ▸ hct)
      cases hd : deliveryFor ev P f sk a with
      | none => simpa [List.filterMap_cons, hd] using ih htnd hct
      | some d =>
        have hda := deliveryFor_eq_some hd
        subst hda
        have hne : ((a, ev, P) : ClientConnection × EventName × γ)
            ≠ (c, ev, P) := by
          simp [hca.symm]
        simpa [List.filterMap_cons, hd, List.count_cons, hne]
          using ih htnd hct

/-! ### Live-set iteration lemmas -/

theorem find?_skip_all (p : ClientConnection → Bool)
    (xs ys : List ClientConnection) (hx : ∀ x ∈ xs, p x = false) :
    List.find? p (xs ++ ys) = List.find? p ys := by
  induction xs with
  | nil => rfl
  | cons a t ih =>
    have ha : p a = false := hx a (List.mem_cons_self a t)
    rw [List.cons_append, List.find?_cons_of_neg _ (by simp [ha])]
    exact ih (fun x hx' => hx x (List.mem_cons_of_mem _ hx'))

theorem nextUnvisited_append (pre : List ClientConnection)
    (b : ClientConnection) (rest : List ClientConnection) (hb : b ∉ pre) :
    nextUnvisited (pre ++ b :: rest) pre = some b := by
  unfold nextUnvisited
  rw [find?_skip_all _ pre _ (fun x hx => by simp [hx])]
  exact List.find?_cons_of_pos _ (by simpa using hb)

theorem nextUnvisited_of_all_visited (live visited : List ClientConnection)
    (h : ∀ x ∈ live, x ∈ visited) : nextUnvisited live visited = none := by
  unfold nextUnvisited
  rw [List.find?_eq_none]
  intro a ha
  simp [h a ha]

theorem emitLoop_no_interleave {γ : Type} (u : String) (ev : EventName)
    (P : γ) (f : RecipientFilter) (sk : Option ClientConnection)
    (r : EventRouter) (L : List ClientConnection)
    (hL : (r.getConnections u).getD [] = L) (hnd : L.Nodup) :
    ∀ (suf pre : List ClientConnection) (fuel : Nat),
      L = pre ++ suf → suf.length ≤ fuel →
      emitLoop fuel r u ev P f sk pre []
        = suf.filterMap (deliveryFor ev P f sk) := by
  intro suf
  induction suf with
  | nil =>
    intro pre fuel hsplit hfuel
    cases fuel with
    | zero => rfl
    | succ n =>
      have hnone : nextUnvisited ((r.getConnections u).getD []) pre = none := by
        rw [hL]
        exact nextUnvisited_of_all_visited _ _
          (fun x hx => by rw [hsplit, List.append_nil] at hx; exact hx)
      simp only [emitLoop, List.headD_nil, List.foldl_nil, hnone,
        List.filterMap_nil]
  | cons b rest ih =>
    intro pre fuel hsplit hfuel
    cases fuel with
    | zero => exact absurd hfuel (by simp)
    | succ n =>
      have hbpre : b ∉ pre := by
        intro hmem
        exact List.disjoint_of_nodup_append (hsplit ▸ hnd) hmem
          (List.mem_cons_self b rest)
      have hnext : nextUnvisited ((r.getConnections u).getD []) pre
          = some b := by
        rw [hL, hsplit]
        exact nextUnvisited_append pre b rest hbpre
      have hsplit' : L = (pre ++ [b]) ++ rest := by
        rw [hsplit, List.append_assoc, List.singleton_append]
      have hfuel' : rest.length ≤ n := Nat.le_of_succ_le_succ (by simpa using hfuel)
      cases hdel : deliveryFor ev P f sk b with
      | some d =>
        simp only [emitLoop, List.headD_nil, List.foldl_nil, hnext, hdel,
          List.tail_nil, List.filterMap_cons]
        rw [ih (pre ++ [b]) n hsplit' hfuel']
      | none =>
        simp only [emitLoop, List.headD_nil, List.foldl_nil, hnext, hdel,
          List.tail_nil, List.filterMap_cons]
        rw [ih (pre ++ [b]) n hsplit' hfuel']

theorem getConnections_removeConnection_self (r : EventRouter) (u : String)
    (c : ClientConnection) (hwf : r.WF) :
    (r.removeConnection u c).getConnections u = none ∨
    ∃ s, (r.removeConnection u c).getConnections u = some s ∧ c ∉ s := by
  cases h : mapGet r.userConnections u with
  | none =>
    left
    have hr : r.removeConnection u c = r := by
      unfold EventRouter.removeConnection
      simp [h]
    rw [hr]
    exact h
  | some s =>
    have hnd : s.Nodup := hwf.2 _ (mem_of_mapGet h)
    by_cases hlen : (s.erase c).length = 0
    · left
      have hr : r.removeConnection u c = ⟨mapDelete r.userConnections u⟩ := by
        unfold EventRouter.removeConnection
        simp [h, hlen]
      rw [hr]
      exact mapGet_mapDelete_self hwf.1
    · right
      refine ⟨s.erase c, ?_, ?_⟩
      · have hr : r.removeConnection u c
            = ⟨mapSet r.userConnections u (s.erase c)⟩ := by
          unfold EventRouter.removeConnection
          simp [h, hlen]
        rw [hr]
        exact mapGet_mapSet_self _ _ _
      · intro hm
        exact (hnd.mem_erase_iff.mp hm).1 rfl

theorem noEmptySets_addConnection {r : EventRouter} (u : String)
    (c : ClientConnection) (hr : noEmptySets r) :
    noEmptySets (r.addConnection u c) := by
  intro p hp
  unfold EventRouter.addConnection at hp
  cases h : mapGet r.userConnections u with
  | none =>
    simp only [h] at hp
    rcases mem_mapSet hp with he | hm
    · rw [he]; exact setAdd_ne_nil [] c
    · exact hr p hm
  | some s =>
    simp only [h] at hp
    rcases mem_mapSet hp with he | hm
    · rw [he]; exact setAdd_ne_nil s c
    · exact hr p hm

theorem noEmptySets_removeConnection {r : EventRouter} (u : String)
    (c : ClientConnection) (hr : noEmptySets r) :
    noEmptySets (r.removeConnection u c) := by
  intro p hp
  unfold EventRouter.removeConnection at hp
  cases h : mapGet r.userConnections u with
  | none => simp only [h] at hp; exact hr p hp
  | some s =>
    simp only [h] at hp
    by_cases hlen : (s.erase c).length = 0
    · rw [if_pos hlen] at hp
      exact hr p (mem_mapDelete hp)
    · rw [if_neg hlen] at hp
      rcases mem_mapSet hp with he | hm
      · rw [he]
        show s.erase c ≠ []
        intro hnil
        exact hlen (by rw [hnil]; rfl)
      · exact hr p hm

/-! ### Claim theorems -/

/-- C1: `shouldSendToConnection` implements exactly the filter table: under
`all-interested-in-session{sid}` it accepts a session-scoped connection iff
its sessionId equals `sid`, accepts every user-scoped connection and rejects
every machine-scoped connection; under `user-scoped-only` it accepts exactly
the user-scoped connections; under `all-user-authenticated-connections` it
accepts every connection. -/
theorem shouldSendToConnection_matches_filter_table (c : ClientConnection)
    (sid : String) :
    (shouldSendToConnection c (.allInterestedInSession sid) = true ↔
      c.scope = .sessionScoped sid ∨ c.scope = .userScoped) ∧
    (shouldSendToConnection c .userScopedOnly = true ↔
      c.scope = .userScoped) ∧
    shouldSendToConnection c .allUserAuthenticatedConnections = true := by
  obtain ⟨cid, cu, sc⟩ := c
  refine ⟨?_, ?_, rfl⟩ <;> cases sc <;>
    simp [shouldSendToConnection]

/-- C2: with the default filter, `emitUpdate` writes the payload under the
`update` event tag exactly once to every connection registered for the user,
except that a connection identity-equal to `skipSenderConnection` receives
nothing. -/
theorem emitUpdate_default_filter_delivers_exactly_once {γ : Type}
    [DecidableEq γ] (r : EventRouter) (u : String) (P : UpdatePayload γ)
    (sk : Option ClientConnection) (s : List ClientConnection)
    (c : ClientConnection) (hwf : r.WF) (hs : r.getConnections u = some s)
    (hc : c ∈ s) :
    ((r.emitUpdate u P none sk).deliveries).count (c, .update, P)
      = if sk = some c then 0 else 1 := by
  have hnd : s.Nodup := nodup_of_getConnections hwf hs
  have hs' : mapGet r.userConnections u = some s := hs
  have hdel : (r.emitUpdate u P none sk).deliveries
      = s.filterMap
          (deliveryFor .update P .allUserAuthenticatedConnections sk) := by
    unfold EventRouter.emitUpdate EventRouter.emit
    simp [hs']
  rw [hdel, count_deliveries_eq .update P .allUserAuthenticatedConnections
    sk s hnd c hc rfl]
  cases sk with
  | none => simp [skipsSender]
  | some x =>
    by_cases hx : c = x
    · simp [skipsSender, hx]
    · have hx' : ¬x = c := fun h => hx h.symm
      simp [skipsSender, hx, hx']

theorem emitUpdate_default_filter_delivers_exactly_once_witness :
    demoRouter.WF ∧ demoRouter.getConnections "u" = some [connA, connB] ∧
    connA ∈ [connA, connB] ∧
    ((demoRouter.emitUpdate "u" demoPayload none
          (some connB)).deliveries).count (connA, .update, demoPayload)
      = if (some connB : Option ClientConnection) = some connA then 0
        else 1 :=
  ⟨by decide, by decide, by decide,
    emitUpdate_default_filter_delivers_exactly_once demoRouter "u"
      demoPayload (some connB) [connA, connB] connA (by decide) (by decide)
      (by decide)⟩

/-- C3 (amended): the `emit` loop iterates the user's live connection set,
not a snapshot copy; when no `removeConnection` interleaves with the loop —
as in the synchronous single-threaded run, modelled by the empty schedule —
the deliveries are exactly those computed from the connection set resolved
when the emission began. (The accompanying counterexample shows that an
interleaved mid-loop `removeConnection` does change the outcome, so the set
considered is not a point-in-time snapshot.) -/
theorem emit_without_interleaving_matches_start_set {γ : Type}
    (r : EventRouter) (u : String) (ev : EventName) (P : γ)
    (f : RecipientFilter) (sk : Option ClientConnection) (fuel : Nat)
    (hnd : ((r.getConnections u).getD []).Nodup)
    (hf : ((r.getConnections u).getD []).length ≤ fuel) :
    emitLoop fuel r u ev P f sk [] [] = (r.emit u ev P f sk).deliveries := by
  have h := emitLoop_no_interleave u ev P f sk r _ rfl hnd
    ((r.getConnections u).getD []) [] fuel (by simp) hf
  rw [h]
  unfold EventRouter.emit
  cases hg : mapGet r.userConnections u with
  | none =>
    have hg' : r.getConnections u = none := hg
    simp [hg']
  | some s =>
    have hg' : r.getConnections u = some s := hg
    simp [hg']

theorem emit_without_interleaving_matches_start_set_witness :
    (((demoRouter.getConnections "u").getD []).Nodup ∧
      ((demoRouter.getConnections "u").getD []).length ≤ 2) ∧
    emitLoop 2 demoRouter "u" .update (0 : Nat)
        .allUserAuthenticatedConnections none [] []
      = (demoRouter.emit "u" .update (0 : Nat)
          .allUserAuthenticatedConnections none).deliveries :=
  ⟨⟨by decide, by decide⟩,
    emit_without_interleaving_matches_start_set demoRouter "u" .update 0
      .allUserAuthenticatedConnections none 2 (by decide) (by decide)⟩

/-- C3 counterexample: the emission loop does not iterate a point-in-time
snapshot. User "u" holds connections `connA, connB`; a
`removeConnection("u", connB)` interleaved after the first loop iteration
leaves `connB` undelivered, while snapshot iteration of the set resolved at
emission start delivers to both — so a mid-emission `removeConnection` does
affect the in-progress iteration. -/
theorem emit_live_iteration_counterexample :
    emitLoop 2 demoRouter "u" .update (0 : Nat)
        .allUserAuthenticatedConnections none [] [[], [("u", connB)]]
      ≠ (demoRouter.emit "u" .update (0 : Nat)
          .allUserAuthenticatedConnections none).deliveries := by
  decide

/-- C4: after `removeConnection(U, C)`, no emission to U (any event tag,
payload, filter or skip argument) delivers to C; and if C was U's only
registered connection, `getConnections(U)` afterwards is absent. -/
theorem removeConnection_stops_delivery_and_clears_user (r : EventRouter)
    (u : String) (c : ClientConnection) (hwf : r.WF) :
    (∀ {γ : Type} (ev : EventName) (P : γ) (f : RecipientFilter)
        (sk : Option ClientConnection)
        (d : ClientConnection × EventName × γ),
        d ∈ ((r.removeConnection u c).emit u ev P f sk).deliveries →
        d.1 ≠ c) ∧
    (r.getConnections u = some [c] →
      (r.removeConnection u c).getConnections u = none) := by
  constructor
  · intro γ ev P f sk d hd
    rcases getConnections_removeConnection_self r u c hwf with
      hnone | ⟨s, hsome, hcs⟩
    · have hnone' : mapGet (r.removeConnection u c).userConnections u
          = none := hnone
      have hemp : ((r.removeConnection u c).emit u ev P f sk).deliveries
          = [] := by
        unfold EventRouter.emit
        simp [hnone']
      rw [hemp] at hd
      cases hd
    · have hsome' : mapGet (r.removeConnection u c).userConnections u
          = some s := hsome
      have hdel : ((r.removeConnection u c).emit u ev P f sk).deliveries
          = s.filterMap (deliveryFor ev P f sk) := by
        unfold EventRouter.emit
        simp [hsome']
      rw [hdel] at hd
      rcases List.mem_filterMap.mp hd with ⟨a, ha, hfa⟩
      have hda := deliveryFor_eq_some hfa
      subst hda
      intro hac
      apply hcs
      rw [← hac]
      exact ha
  · intro hc
    have hc' : mapGet r.userConnections u = some [c] := hc
    have hr : r.removeConnection u c = ⟨mapDelete r.userConnections u⟩ := by
      unfold EventRouter.removeConnection
      simp [hc']
    rw [hr]
    exact mapGet_mapDelete_self hwf.1

theorem removeConnection_stops_delivery_and_clears_user_witness :
    demoRouter.WF ∧
    ((connA, EventName.update, (0 : Nat))
        ∈ ((demoRouter.removeConnection "u" connB).emit "u" .update (0 : Nat)
            .allUserAuthenticatedConnections none).deliveries) ∧
    (connA, EventName.update, (0 : Nat)).1 ≠ connB ∧
    soloRouter.WF ∧ soloRouter.getConnections "u" = some [connA] ∧
    (soloRouter.removeConnection "u" connA).getConnections "u" = none :=
  ⟨by decide, by decide,
    (removeConnection_stops_delivery_and_clears_user demoRouter "u" connB
        (by decide)).1 .update 0 .allUserAuthenticatedConnections none _
      (by decide),
    by decide, by decide,
    (removeConnection_stops_delivery_and_clears_user soloRouter "u" connA
        (by decide)).2 (by decide)⟩

/-- C5: starting from the empty registry, every key present maps to a
non-empty connection set: the invariant holds initially, is preserved by
every single call (`removeConnection` deletes the key when the last
connection goes), and therefore holds after any finite call sequence. -/
theorem registry_never_maps_key_to_empty_set {γ : Type} :
    noEmptySets EventRouter.empty ∧
    (∀ (r : EventRouter) (o : Op γ), noEmptySets r →
      noEmptySets (applyOp r o).1) ∧
    ∀ ops : List (Op γ), noEmptySets (runOps EventRouter.empty ops) := by
  have hpres : ∀ (r : EventRouter) (o : Op γ), noEmptySets r →
      noEmptySets (applyOp r o).1 := by
    intro r o hr
    cases o with
    | add u c => exact noEmptySets_addConnection u c hr
    | remove u c => exact noEmptySets_removeConnection u c hr
    | update u p f sk => exact hr
    | ephemeral u p f sk => exact hr
  refine ⟨fun p hp => absurd hp (List.not_mem_nil p), hpres, ?_⟩
  intro ops
  have hrun : ∀ r : EventRouter, noEmptySets r →
      noEmptySets (runOps r ops) := by
    induction ops with
    | nil => intro r hr; exact hr
    | cons o t ih => intro r hr; exact ih _ (hpres r o hr)
  exact hrun _ (fun p hp => absurd hp (List.not_mem_nil p))

theorem registry_never_maps_key_to_empty_set_witness :
    noEmptySets (applyOp (γ := Unit) demoRouter (Op.remove "u" connB)).1 :=
  (registry_never_maps_key_to_empty_set (γ := Unit)).2.1 demoRouter
    (Op.remove "u" connB) (by decide)

/-- C6: adding the same connection object twice and then emitting once with
the default filter delivers the payload to that connection exactly once —
the second `addConnection` has no observable effect on delivery count. -/
theorem addConnection_twice_delivers_once {γ : Type} [DecidableEq γ]
    (r : EventRouter) (u : String) (c : ClientConnection)
    (P : UpdatePayload γ) (hwf : r.WF) :
    ((((r.addConnection u c).addConnection u c).emitUpdate u P none
        none).deliveries).count (c, .update, P) = 1 := by
  rw [addConnection_addConnection]
  have hnd0 : ((r.getConnections u).getD []).Nodup := by
    cases hg : r.getConnections u with
    | none => simp
    | some s => simpa using nodup_of_getConnections hwf hg
  have hnd : (setAdd ((r.getConnections u).getD []) c).Nodup :=
    setAdd_nodup c hnd0
  have hs' : mapGet (r.addConnection u c).userConnections u
      = some (setAdd ((r.getConnections u).getD []) c) :=
    getConnections_addConnection_self r u c
  have hdel : ((r.addConnection u c).emitUpdate u P none none).deliveries
      = (setAdd ((r.getConnections u).getD []) c).filterMap
          (deliveryFor .update P .allUserAuthenticatedConnections none) := by
    unfold EventRouter.emitUpdate EventRouter.emit
    simp [hs']
  rw [hdel, count_deliveries_eq .update P .allUserAuthenticatedConnections
    none _ hnd _ (mem_setAdd_self _ c) rfl]
  simp [skipsSender]

theorem addConnection_twice_delivers_once_witness :
    EventRouter.empty.WF ∧
    ((((EventRouter.empty.addConnection "u" connA).addConnection "u"
          connA).emitUpdate "u" demoPayload none none).deliveries).count
        (connA, .update, demoPayload) = 1 :=
  ⟨by decide,
    addConnection_twice_delivers_once EventRouter.empty "u" connA
      demoPayload (by decide)⟩

/-- C7: emitting to a user with no registered connections performs no
channel write, logs the "no connections" warning, and returns normally —
for both entry points, every payload, filter and skip argument. -/
theorem emit_to_absent_user_warns_and_delivers_nothing (r : EventRouter)
    (u : String) (hu : r.getConnections u = none) :
    ∀ {γ : Type} (P : UpdatePayload γ) (Q : EphemeralPayload)
      (f : Option RecipientFilter) (sk : Option ClientConnection),
      (r.emitUpdate u P f sk).deliveries = [] ∧
      (r.emitUpdate u P f sk).warnings
        = ["No connections found for user " ++ u] ∧
      (r.emitEphemeral u Q f sk).deliveries = [] ∧
      (r.emitEphemeral u Q f sk).warnings
        = ["No connections found for user " ++ u] := by
  intro γ P Q f sk
  have hu' : mapGet r.userConnections u = none := hu
  unfold EventRouter.emitUpdate EventRouter.emitEphemeral EventRouter.emit
  simp [hu']

theorem emit_to_absent_user_witness :
    EventRouter.empty.getConnections "alice" = none ∧
    (EventRouter.empty.emitEphemeral "alice" usageDemo none
        none).deliveries = [] ∧
    (EventRouter.empty.emitEphemeral "alice" usageDemo none none).warnings
      = ["No connections found for user " ++ "alice"] :=
  ⟨rfl,
    (emit_to_absent_user_warns_and_delivers_nothing EventRouter.empty
        "alice" rfl demoPayload usageDemo none none).2.2.1,
    (emit_to_absent_user_warns_and_delivers_nothing EventRouter.empty
        "alice" rfl demoPayload usageDemo none none).2.2.2⟩

/-- C8: `buildNewMessageUpdate` passes the supplied update id and seq
through to the envelope unchanged, and its body is the `new-message` variant
carrying exactly the supplied session id together with the message record,
whose `createdAt`/`updatedAt` are converted from dates to epoch-millisecond
integers. -/
theorem buildNewMessageUpdate_envelope_and_body {γ : Type}
    (m : MessageRecord γ) (sessionId : String) (updateSeq : Int)
    (updateId : String) (now : Int) :
    (buildNewMessageUpdate m sessionId updateSeq updateId now).id
      = updateId ∧
    (buildNewMessageUpdate m sessionId updateSeq updateId now).seq
      = updateSeq ∧
    (buildNewMessageUpdate m sessionId updateSeq updateId now).body
      = .newMessage sessionId
          ⟨m.id, m.seq, m.content, m.localId, m.createdAt.getTime,
            m.updatedAt.getTime⟩ :=
  ⟨rfl, rfl, rfl⟩

/-- C9: `buildNewSessionUpdate` is deterministic given (entity, seq, id):
two calls differing only in their `Date.now()` reading agree on the envelope
id, seq and body, and the envelope `createdAt` is exactly the build-time
reading — the builder's only non-determinism. -/
theorem buildNewSessionUpdate_deterministic_except_createdAt {γ : Type}
    (s : SessionEntity) (updateSeq : Int) (updateId : String)
    (t1 t2 : Int) :
    (buildNewSessionUpdate (γ := γ) s updateSeq updateId t1).id
      = (buildNewSessionUpdate (γ := γ) s updateSeq updateId t2).id ∧
    (buildNewSessionUpdate (γ := γ) s updateSeq updateId t1).seq
      = (buildNewSessionUpdate (γ := γ) s updateSeq updateId t2).seq ∧
    (buildNewSessionUpdate (γ := γ) s updateSeq updateId t1).body
      = (buildNewSessionUpdate (γ := γ) s updateSeq updateId t2).body ∧
    (buildNewSessionUpdate (γ := γ) s updateSeq updateId t1).createdAt
      = t1 :=
  ⟨rfl, rfl, rfl, rfl⟩

/-- C10: emission calls never mutate the connection registry: after an
`emitUpdate` or `emitEphemeral` step, `getConnections` answers exactly as
before for every user — only `addConnection` and `removeConnection` mutate
the registry. -/
theorem emission_leaves_registry_unchanged {γ : Type} (r : EventRouter)
    (target u : String) (P : UpdatePayload γ) (Q : EphemeralPayload)
    (f : Option RecipientFilter) (sk : Option ClientConnection) :
    (applyOp r (Op.update target P f sk)).1.getConnections u
      = r.getConnections u ∧
    (applyOp r (Op.ephemeral (γ := γ) target Q f sk)).1.getConnections u
      = r.getConnections u :=
  ⟨rfl, rfl⟩

end HappyServer
